import Mathlib

/-!
Verification of plugin-org's domain-readiness poller (`src/shared/open.ts`) and
scratch-org creation orchestrator (`src/commands/org/create/scratch-ink.tsx`)
through a shallow embedding: the source's control flow is translated into
executable Lean definitions over explicit traces and states, and the spec's
claims are settled as theorems about those definitions.
-/

namespace PluginOrg

/-- Observable side effects of the poller in `open.ts`.
`resolveAttempt n` models one call of `open.checkDns` (attempt counter value `n`);
`startSpinner` / `stopSpinner` model `ux.startSpinner(openCommandDomainWaiting)` and
`ux.stopSpinner()`; `delay` models `open.delay()`, which is `sleep(1, Duration.Unit.SECONDS)`,
i.e. one fixed 1-second pause. -/
inductive UXEvent where
  | resolveAttempt (retryCount : Nat)
  | startSpinner
  | stopSpinner
  | delay
  deriving DecidableEq, Repr

/-- Recursion core of `open.checkLightningDomain` (open.ts lines 77-101).
The structural argument `gas` maintains the invariant `gas = maxAttempts - retryCount`,
so `gas = 0` in the error branch holds exactly when the source guard
`retryCount >= open.getDomainRetries()` fires.  The resolver is the injected
outcome of `open.checkDns` for each attempt counter value: `.ok` means the DNS
lookup found an address, `.error e` means it threw `e`.  The returned list is the
trace of UX side effects, in order; the returned `Except` is the function's result
(`.error e` models the `throw err` of the exhaustion branch). -/
def checkLightningDomainGo (resolver : Nat → Except ε Unit) :
    Nat → Nat → List UXEvent × Except ε Unit
  | gas, retryCount =>
    match resolver retryCount with
    | .ok _ =>
        if retryCount > 0 then
          ([.resolveAttempt retryCount, .stopSpinner], .ok ())
        else
          ([.resolveAttempt retryCount], .ok ())
    | .error err =>
        match gas with
        | 0 => ([.resolveAttempt retryCount, .stopSpinner], .error err)
        | gas' + 1 =>
            let rest := checkLightningDomainGo resolver gas' (retryCount + 1)
            (.resolveAttempt retryCount ::
              ((if retryCount = 0 then [.startSpinner] else []) ++ .delay :: rest.1),
             rest.2)

/-- `open.checkLightningDomain(myDomain, ux, retryCount)` with `maxAttempts` the value of
`open.getDomainRetries()` (read once; the env var is constant for one session).  The source's
default argument is `retryCount = 0`. -/
def checkLightningDomain (resolver : Nat → Except ε Unit) (maxAttempts : Nat)
    (retryCount : Nat := 0) : List UXEvent × Except ε Unit :=
  checkLightningDomainGo resolver (maxAttempts - retryCount) retryCount

/-- The default retry budget: `getDomainRetries` reads `SFDX_DOMAIN_RETRY` with default `'240'`
(open.ts line 67). -/
def defaultDomainRetries : Nat := 240

/-- The only error `open.open` can construct: the inner catch (open.ts lines 141-145) throws
`new SfdxError(openCommandDomainTimeoutError, ...)` regardless of the caught error. -/
inductive OpenErr where
  | openCommandDomainTimeoutError
  deriving DecidableEq, Repr

/-- Inputs of `open.open` that the readiness logic (open.ts lines 131-149) branches on:
`domainRetries` is `open.getDomainRetries()`; `isInternalUrl` is `srcDevUtil.isInternalUrl(url)`;
`domainMatch` is the result of `url.match(/https?:\/\/([^.]*)/)[1]` (`none` models the match
returning `null`, so the index access throws); `resolver` is the injected DNS outcome per
attempt. -/
structure OpenConfig (ε : Type) where
  domainRetries : Nat
  isInternalUrl : Bool
  domainMatch : Option String
  resolver : Nat → Except ε Unit

/-- The inner `try` of `open.open` (open.ts lines 137-145): extract the domain (an extraction
failure throws before any DNS attempt), run `checkLightningDomain`, and on any caught error
throw the `openCommandDomainTimeoutError` `SfdxError`.  `.ok ()` stands for `return act()`. -/
def openInner (cfg : OpenConfig ε) : List UXEvent × Except OpenErr Unit :=
  match cfg.domainMatch with
  | none => ([], .error .openCommandDomainTimeoutError)
  | some _ =>
      let r := checkLightningDomain cfg.resolver cfg.domainRetries
      match r.2 with
      | .ok _ => (r.1, .ok ())
      | .error _ => (r.1, .error .openCommandDomainTimeoutError)

/-- `open.open` (open.ts lines 113-150), readiness portion.  If the retry budget is `0` or the
url is internal, it returns `act()` at once (line 132-134) with no DNS attempt.  Otherwise it
runs the inner try; the outer `catch` (lines 146-149, commented "Error extracting the mydomain,
just return.") catches anything the inner block threw -- including the
`openCommandDomainTimeoutError` thrown by the inner catch -- and returns `act()`.
`.ok ()` stands for the successful return of `retVal` (after opening the browser). -/
def openOp (cfg : OpenConfig ε) : List UXEvent × Except OpenErr Unit :=
  if cfg.domainRetries == 0 || cfg.isInternalUrl then ([], .ok ())
  else
    let r := openInner cfg
    match r.2 with
    | .ok _ => (r.1, .ok ())
    | .error _ => (r.1, .ok ())

/-- The attempt counter values of the `checkDns` calls recorded in a trace, in order. -/
def attemptsOf (t : List UXEvent) : List Nat :=
  t.filterMap fun e =>
    match e with
    | .resolveAttempt n => some n
    | _ => none

/-- Expected trace of a polling session whose resolver fails on every attempt, with retry
budget `N`: attempts `0..N`, a spinner start after the first failed attempt (only if a retry
will happen), exactly one 1-second delay between consecutive attempts, and a final spinner
stop at exhaustion. -/
def failTraceStep (N i : Nat) : List UXEvent :=
  UXEvent.resolveAttempt i ::
    ((if i = 0 ∧ 0 < N then [UXEvent.startSpinner] else []) ++
      (if i < N then [UXEvent.delay] else []))

/-- Full expected trace for an always-failing resolver and budget `N`. -/
def expectedFailTrace (N : Nat) : List UXEvent :=
  ((List.range (N + 1)).map (failTraceStep N)).flatten ++ [UXEvent.stopSpinner]

/-! ### Scratch-org creation orchestrator (`scratch-ink.tsx`) -/

/-- The fields of the `scratchOrgInfo` payload the embedded code reads: the request
identifier `Id` (scratch-ink.tsx lines 289, 306-307). -/
structure ScratchOrgInfo where
  id : String
  deriving DecidableEq, Repr

/-- `ScratchOrgLifecycleEvent`: a `stage` name from the SDK's ordered
`scratchOrgLifecycleStages` list (terminal stage `'done'`), plus the optional
partially-filled org info. -/
structure LifecycleEvent where
  stage : String
  scratchOrgInfo : Option ScratchOrgInfo := none
  deriving DecidableEq, Repr

/-- Classification of one stage row by the `Status` component (scratch-ink.tsx lines 72-110).
`blank` is the fall-through that renders nothing (the `'done'` row when it is neither current
nor completed). -/
inductive StageClass where
  | current
  | completed
  | doneCurrent
  | future
  | blank
  deriving DecidableEq, Repr

/-- JavaScript `Array.prototype.indexOf`: the index of the first occurrence, or `-1` when the
element is absent. -/
def jsIndexOf (l : List String) (x : String) : Int :=
  if x ∈ l then (l.indexOf x : Int) else -1

/-- The branch cascade of `scratchOrgLifecycleStages.map((stage, stageIndex) => ...)` in
`Status` (scratch-ink.tsx lines 73-109), for current event stage `cur`: first the
current-stage check (`props.data.stage === stage && stage !== 'done'`), then the completed
check (`scratchOrgLifecycleStages.indexOf(props.data.stage) > stageIndex`), then the
done-current check, then the future check (`stage !== 'done'`). -/
def classifyStage (stages : List String) (cur stage : String) (stageIndex : Nat) : StageClass :=
  if cur = stage ∧ stage ≠ "done" then .current
  else if jsIndexOf stages cur > (stageIndex : Int) then .completed
  else if cur = stage ∧ stage = "done" then .doneCurrent
  else if stage ≠ "done" then .future
  else .blank

/-- One frame handed to an ink render instance for the `Status` component:
the `data` prop (the last observed lifecycle event, `none` on the initial
`render(<Status baseUrl={baseUrl} />)`) and the `error` prop. -/
structure StatusFrame (ε : Type) where
  data : Option LifecycleEvent
  error : Option ε
  deriving DecidableEq, Repr

/-- The contract of an ink render `Instance` (external collaborator, modelled at its
interface boundary): `render` mounts an instance showing an initial frame; `rerender`
replaces the output with a new frame, and is a no-op once the instance is unmounted
(ink's `Ink.render` returns immediately when `isUnmounted`); `unmount` tears the live
surface down.  `frames` records every frame that was actually rendered, and `teardowns`
counts the live-to-torn-down transitions. -/
structure InkInstance (φ : Type) where
  mounted : Bool
  frames : List φ
  teardowns : Nat
  deriving DecidableEq, Repr

/-- `render(...)`: a freshly mounted instance showing `frame`. -/
def InkInstance.renderNew (frame : φ) : InkInstance φ :=
  ⟨true, [frame], 0⟩

/-- `instance.rerender(...)`: renders the new frame only while mounted. -/
def InkInstance.rerender (inst : InkInstance φ) (frame : φ) : InkInstance φ :=
  if inst.mounted then { inst with frames := inst.frames ++ [frame] } else inst

/-- `instance.unmount()`: tears the surface down if it is still live. -/
def InkInstance.unmount (inst : InkInstance φ) : InkInstance φ :=
  if inst.mounted then { inst with mounted := false, teardowns := inst.teardowns + 1 } else inst

/-- Errors observed by `run`'s catch block: `isSfError` models `error instanceof SfError`,
`name` is the error's name, and `scratchOrgInfoId` the `error.data.scratchOrgInfoId`
payload read in the timeout branch (scratch-ink.tsx lines 305-306). -/
structure CreateErr where
  isSfError : Bool
  name : String
  message : String
  scratchOrgInfoId : String
  deriving DecidableEq, Repr

/-- The mutable state of the synchronous-mode tracker: the module-level
`scratchOrgLifecycleData` variable and the `statusInstance` render instance. -/
structure TrackerState (ε : Type) where
  lastData : Option LifecycleEvent
  inst : InkInstance (StatusFrame ε)
  deriving DecidableEq, Repr

/-- The `lifecycle.on(scratchOrgLifecycleEventName, ...)` callback (scratch-ink.tsx lines
269-276): store the event, rerender the status view with it, and unmount the status
instance when the terminal stage `'done'` is observed. -/
def onScratchOrgLifecycleEvent (st : TrackerState ε) (data : LifecycleEvent) : TrackerState ε :=
  let inst := st.inst.rerender ⟨some data, none⟩
  let inst := if data.stage = "done" then inst.unmount else inst
  ⟨some data, inst⟩

/-- Delivery of a sequence of lifecycle events to the subscribed callback, in emission
order (the event bus is ordered per publisher). -/
def processLifecycleEvents (st : TrackerState ε) (events : List LifecycleEvent) : TrackerState ε :=
  events.foldl onScratchOrgLifecycleEvent st

/-- The tracker state right after `render(<Status baseUrl={baseUrl} />)` (scratch-ink.tsx
line 268): no event observed yet, one mounted instance whose initial frame has no data. -/
def initialTrackerState : TrackerState ε :=
  ⟨none, InkInstance.renderNew ⟨none, none⟩⟩

/-- The label of the single async-mode indicator (scratch-ink.tsx line 265). -/
def asyncLabel : String :=
  " Requesting Scratch Org (will not wait for completion because --async)"

/-- Modelled from the spec: the `action.resume` message template lives in the plugin's
messages directory (`messages/create_scratch.md`), which is absent from `src/`; per the
spec it is "a resume hint printed to standard output referencing a stored identifier and
the invoking program's name". -/
def actionResume (bin scratchOrgInfoId : String) : String :=
  "Resume scratch org creation with: " ++ bin ++ " org resume scratch --job-id " ++
    scratchOrgInfoId

/-- The error thrown when `scratchOrgCreate` resolves without a `scratchOrgInfo` payload
(scratch-ink.tsx lines 282-284): a plain `SfError`, whose name is the default `'SfError'`,
not `'ScratchOrgInfoTimeoutError'`. -/
def missingInfoError : CreateErr :=
  ⟨true, "SfError", "The scratch org did not return with any information", ""⟩

/-- Outcome of awaiting the external `scratchOrgCreate` call. -/
inductive Outcome where
  | resolved (scratchOrgInfo : Option ScratchOrgInfo)
  | rejected (e : CreateErr)
  deriving DecidableEq, Repr

/-- One creation attempt as seen at the interface boundary: the lifecycle events the call
publishes to the event bus while pending, and how the awaited promise settles. -/
structure CreateCall where
  events : List LifecycleEvent
  outcome : Outcome
  deriving DecidableEq, Repr

/-- How `run` terminates: a returned `ScratchCreateResponse` (success), a
`this.error(..., { exit: 69 })` termination, or a rethrown error. -/
inductive RunResult where
  | ok (scratchOrgInfo : ScratchOrgInfo)
  | exit (code : Nat) (message : String)
  | thrown (e : CreateErr)
  deriving DecidableEq, Repr

/-- Everything observable about one `OrgCreateScratch.run` invocation: whether the
lifecycle subscription was registered, the final states of the two possible render
instances (`none` when the surface was never created), the `this.info` messages
emitted, and the termination. -/
structure RunOut where
  subscribed : Bool
  asyncInst : Option (InkInstance String)
  statusInst : Option (InkInstance (StatusFrame CreateErr))
  infos : List String
  result : RunResult
  deriving DecidableEq, Repr

/-- The `catch` block of `run` (scratch-ink.tsx lines 295-314): unmount the async
instance if present; rerender the status view once with the last known event merged with
the error, then unmount it; then either emit the resume hint and exit 69 (classified
creation timeout) or rethrow. -/
def runCatch (subscribed : Bool) (bin : String) (asyncInst : Option (InkInstance String))
    (tracker : Option (TrackerState CreateErr)) (e : CreateErr) : RunOut :=
  { subscribed := subscribed
    asyncInst := asyncInst.map InkInstance.unmount
    statusInst := tracker.map fun t => (t.inst.rerender ⟨t.lastData, some e⟩).unmount
    infos :=
      if e.isSfError && e.name == "ScratchOrgInfoTimeoutError" then
        [actionResume bin e.scratchOrgInfoId]
      else []
    result :=
      if e.isSfError && e.name == "ScratchOrgInfoTimeoutError" then
        .exit 69 "The scratch org did not complete within your wait time"
      else .thrown e }

/-- `OrgCreateScratch.run` (scratch-ink.tsx lines 246-315), from the point the mode is
chosen (line 263).  Async mode renders the single async indicator and never subscribes;
synchronous mode renders the status view and subscribes the lifecycle callback before the
call is awaited, so every published event of the attempt is delivered to it.  Then the
awaited outcome is dispatched: a resolved call without org info throws `missingInfoError`
into the catch; a resolved call with info tears down the async indicator (after
`clear()`) and emits the resume hint in async mode, or logs success in synchronous mode;
a rejection goes to the catch block. -/
def run (isAsync : Bool) (bin : String) (call : CreateCall) : RunOut :=
  let asyncInst0 : Option (InkInstance String) :=
    if isAsync then some (InkInstance.renderNew asyncLabel) else none
  let tracker0 : Option (TrackerState CreateErr) :=
    if isAsync then none else some initialTrackerState
  let tracker1 : Option (TrackerState CreateErr) :=
    tracker0.map (processLifecycleEvents · call.events)
  match call.outcome with
  | .resolved none => runCatch (!isAsync) bin asyncInst0 tracker1 missingInfoError
  | .resolved (some info) =>
      if isAsync then
        { subscribed := !isAsync
          asyncInst := asyncInst0.map InkInstance.unmount
          statusInst := tracker1.map (fun t => t.inst)
          infos := [actionResume bin info.id]
          result := .ok info }
      else
        { subscribed := !isAsync
          asyncInst := asyncInst0
          statusInst := tracker1.map (fun t => t.inst)
          infos := []
          result := .ok info }
  | .rejected e => runCatch (!isAsync) bin asyncInst0 tracker1 e

/-! ### Lemmas about the domain-readiness poller -/

lemma checkLightningDomainGo_alwaysFail (err : Nat → ε) :
    ∀ gas r,
      checkLightningDomainGo (fun n => Except.error (err n)) gas r =
        (((List.range' r (gas + 1)).map (failTraceStep (r + gas))).flatten ++
          [UXEvent.stopSpinner],
         Except.error (err (r + gas))) := by
  intro gas
  induction gas with
  | zero =>
      intro r
      have h0 : checkLightningDomainGo (fun n => Except.error (err n)) 0 r =
          ([UXEvent.resolveAttempt r, UXEvent.stopSpinner], Except.error (err r)) := rfl
      have hc1 : ¬(r = 0 ∧ 0 < r + 0) := by omega
      have hc2 : ¬(r < r + 0) := by omega
      rw [h0]
      simp [List.range'_one, failTraceStep, hc1, hc2]
  | succ g ih =>
      intro r
      have step : checkLightningDomainGo (fun n => Except.error (err n)) (g + 1) r =
          (UXEvent.resolveAttempt r ::
            ((if r = 0 then [UXEvent.startSpinner] else []) ++
              UXEvent.delay :: (checkLightningDomainGo (fun n => Except.error (err n)) g (r + 1)).1),
           (checkLightningDomainGo (fun n => Except.error (err n)) g (r + 1)).2) := rfl
      have hb : r + 1 + g = r + (g + 1) := by omega
      have h1 : 0 < r + (g + 1) := by omega
      have h2 : r < r + (g + 1) := by omega
      conv_rhs => rw [List.range'_succ, List.map_cons, List.flatten_cons]
      rw [step, ih (r + 1), hb]
      simp [failTraceStep, h1, h2, List.append_assoc]

lemma attemptsOf_append (a b : List UXEvent) :
    attemptsOf (a ++ b) = attemptsOf a ++ attemptsOf b := by
  simp [attemptsOf]

lemma attemptsOf_failTraceStep (N i : Nat) : attemptsOf (failTraceStep N i) = [i] := by
  simp only [attemptsOf, failTraceStep]
  split_ifs <;> rfl

lemma attemptsOf_flatten_map (f : Nat → List UXEvent) (h : ∀ i, attemptsOf (f i) = [i]) :
    ∀ l : List Nat, attemptsOf ((l.map f).flatten) = l := by
  intro l
  induction l with
  | nil => rfl
  | cons a t iht => simp [attemptsOf_append, h, iht]

lemma attemptsOf_expectedFailTrace (N : Nat) :
    attemptsOf (expectedFailTrace N) = List.range (N + 1) := by
  unfold expectedFailTrace
  rw [attemptsOf_append,
    attemptsOf_flatten_map (failTraceStep N) (attemptsOf_failTraceStep N) (List.range (N + 1))]
  simp [attemptsOf]

/-! ### Claims about `open.ts` -/

/-- C2: with a resolver that fails on every call and a retry budget `N`, the poller performs
exactly `N + 1` resolution attempts with counter values `0` through `N`, with exactly one
fixed 1-second delay between consecutive attempts, and then fails carrying the last
underlying resolution error; and with a budget of `0`, `open.open` performs zero resolution
attempts and proceeds as ready immediately. -/
theorem poller_exhaustion_attempt_count (N : Nat) (err : Nat → ε) (internal : Bool)
    (dm : Option String) (res : Nat → Except ε Unit) :
    checkLightningDomain (fun n => Except.error (err n)) N =
      (expectedFailTrace N, Except.error (err N)) ∧
    attemptsOf (checkLightningDomain (fun n => Except.error (err n)) N).1 =
      List.range (N + 1) ∧
    openOp ⟨0, internal, dm, res⟩ = ([], Except.ok ()) := by
  have key : checkLightningDomain (fun n => Except.error (err n)) N =
      (expectedFailTrace N, Except.error (err N)) := by
    unfold checkLightningDomain
    rw [Nat.sub_zero, checkLightningDomainGo_alwaysFail err N 0]
    simp [expectedFailTrace, List.range_eq_range', Nat.zero_add]
  refine ⟨key, ?_, ?_⟩
  · rw [key]
    exact attemptsOf_expectedFailTrace N
  · simp [openOp]

/-- C7: with a resolver that fails on attempts 0, 1, 2 and succeeds on attempt 3, and any
retry budget of at least 3, the waiting spinner is started exactly once (right after the
failure of attempt 0) and stopped exactly once (right after the success), and the poller
returns success. -/
theorem poller_waiting_indicator_once (N : Nat) (hN : 3 ≤ N) (err : Nat → ε) :
    checkLightningDomain (fun n => if n < 3 then Except.error (err n) else Except.ok ()) N =
      ([.resolveAttempt 0, .startSpinner, .delay, .resolveAttempt 1, .delay,
        .resolveAttempt 2, .delay, .resolveAttempt 3, .stopSpinner], Except.ok ()) ∧
    ((checkLightningDomain (fun n => if n < 3 then Except.error (err n) else Except.ok ())
        N).1.count UXEvent.startSpinner = 1 ∧
      (checkLightningDomain (fun n => if n < 3 then Except.error (err n) else Except.ok ())
        N).1.count UXEvent.stopSpinner = 1) := by
  obtain ⟨g, rfl⟩ : ∃ g, N = g + 3 := ⟨N - 3, by omega⟩
  have key : checkLightningDomain
      (fun n => if n < 3 then Except.error (err n) else Except.ok ()) (g + 3) =
      ([.resolveAttempt 0, .startSpinner, .delay, .resolveAttempt 1, .delay,
        .resolveAttempt 2, .delay, .resolveAttempt 3, .stopSpinner], Except.ok ()) := by
    unfold checkLightningDomain
    rw [Nat.sub_zero]
    have s0 : checkLightningDomainGo
        (fun n => if n < 3 then Except.error (err n) else Except.ok ()) (g + 3) 0 =
        (UXEvent.resolveAttempt 0 :: UXEvent.startSpinner :: UXEvent.delay ::
          (checkLightningDomainGo
            (fun n => if n < 3 then Except.error (err n) else Except.ok ()) (g + 2) 1).1,
         (checkLightningDomainGo
            (fun n => if n < 3 then Except.error (err n) else Except.ok ()) (g + 2) 1).2) := rfl
    have s1 : checkLightningDomainGo
        (fun n => if n < 3 then Except.error (err n) else Except.ok ()) (g + 2) 1 =
        (UXEvent.resolveAttempt 1 :: UXEvent.delay ::
          (checkLightningDomainGo
            (fun n => if n < 3 then Except.error (err n) else Except.ok ()) (g + 1) 2).1,
         (checkLightningDomainGo
            (fun n => if n < 3 then Except.error (err n) else Except.ok ()) (g + 1) 2).2) := rfl
    have s2 : checkLightningDomainGo
        (fun n => if n < 3 then Except.error (err n) else Except.ok ()) (g + 1) 2 =
        (UXEvent.resolveAttempt 2 :: UXEvent.delay ::
          (checkLightningDomainGo
            (fun n => if n < 3 then Except.error (err n) else Except.ok ()) g 3).1,
         (checkLightningDomainGo
            (fun n => if n < 3 then Except.error (err n) else Except.ok ()) g 3).2) := rfl
    have s3 : checkLightningDomainGo
        (fun n => if n < 3 then Except.error (err n) else Except.ok ()) g 3 =
        ([UXEvent.resolveAttempt 3, UXEvent.stopSpinner], Except.ok ()) := by
      cases g with
      | zero => rfl
      | succ g' => rfl
    rw [s0, s1, s2, s3]
  refine ⟨key, ?_, ?_⟩ <;> rw [key] <;> rfl

/-- Witness for C7 at the smallest admissible budget `N = 3` with error payloads the
attempt numbers themselves. -/
theorem poller_waiting_indicator_once_witness :
    3 ≤ 3 ∧
    (checkLightningDomain (ε := Nat)
        (fun n => if n < 3 then Except.error n else Except.ok ()) 3 =
        ([.resolveAttempt 0, .startSpinner, .delay, .resolveAttempt 1, .delay,
          .resolveAttempt 2, .delay, .resolveAttempt 3, .stopSpinner], Except.ok ()) ∧
      ((checkLightningDomain (ε := Nat)
          (fun n => if n < 3 then Except.error n else Except.ok ()) 3).1.count
            UXEvent.startSpinner = 1 ∧
        (checkLightningDomain (ε := Nat)
          (fun n => if n < 3 then Except.error n else Except.ok ()) 3).1.count
            UXEvent.stopSpinner = 1)) :=
  ⟨by decide, poller_waiting_indicator_once 3 (by decide) (fun n => n)⟩

/-- C8: for any target url classified internal, `open.open` proceeds as ready without
invoking the domain resolver at all: the UX trace is empty (zero resolution attempts) and
the operation returns successfully, whatever the retry budget, domain extraction result
and resolver behavior. -/
theorem open_internal_bypasses_resolver (retries : Nat) (dm : Option String)
    (res : Nat → Except ε Unit) :
    openOp ⟨retries, true, dm, res⟩ = ([], Except.ok ()) := by
  simp [openOp]

/-! ### Lemmas about ink instances and the tracker fold -/

@[simp] lemma InkInstance.mounted_rerender (inst : InkInstance φ) (f : φ) :
    (inst.rerender f).mounted = inst.mounted := by
  simp only [InkInstance.rerender]
  split <;> rfl

@[simp] lemma InkInstance.teardowns_rerender (inst : InkInstance φ) (f : φ) :
    (inst.rerender f).teardowns = inst.teardowns := by
  simp only [InkInstance.rerender]
  split <;> rfl

@[simp] lemma InkInstance.frames_rerender (inst : InkInstance φ) (f : φ) :
    (inst.rerender f).frames = inst.frames ++ (if inst.mounted then [f] else []) := by
  simp only [InkInstance.rerender]
  split <;> simp_all

@[simp] lemma InkInstance.mounted_unmount (inst : InkInstance φ) :
    inst.unmount.mounted = false := by
  simp only [InkInstance.unmount]
  split <;> simp_all

@[simp] lemma InkInstance.teardowns_unmount (inst : InkInstance φ) :
    inst.unmount.teardowns = inst.teardowns + (if inst.mounted then 1 else 0) := by
  simp only [InkInstance.unmount]
  split <;> simp_all

@[simp] lemma InkInstance.frames_unmount (inst : InkInstance φ) :
    inst.unmount.frames = inst.frames := by
  simp only [InkInstance.unmount]
  split <;> rfl

lemma processLifecycleEvents_cons (st : TrackerState ε) (e : LifecycleEvent)
    (t : List LifecycleEvent) :
    processLifecycleEvents st (e :: t) =
      processLifecycleEvents (onScratchOrgLifecycleEvent st e) t := rfl

lemma onScratchOrgLifecycleEvent_inst_of_unmounted (st : TrackerState ε) (e : LifecycleEvent)
    (h : st.inst.mounted = false) :
    (onScratchOrgLifecycleEvent st e).inst = st.inst := by
  simp only [onScratchOrgLifecycleEvent]
  split
  · simp [InkInstance.rerender, InkInstance.unmount, h]
  · simp [InkInstance.rerender, h]

/-- Once the status instance is unmounted, delivering further events leaves it unchanged:
`rerender` and `unmount` are both no-ops on an unmounted ink instance. -/
lemma processLifecycleEvents_inst_of_unmounted (es : List LifecycleEvent) :
    ∀ st : TrackerState ε, st.inst.mounted = false →
      (processLifecycleEvents st es).inst = st.inst := by
  induction es with
  | nil => intro st _; rfl
  | cons e t ih =>
      intro st h
      have hstep := onScratchOrgLifecycleEvent_inst_of_unmounted st e h
      rw [processLifecycleEvents_cons, ih _ (by rw [hstep]; exact h), hstep]

/-- The status instance is still live after a batch of events exactly when it was live
before and no event of the batch carried the terminal stage. -/
lemma processLifecycleEvents_mounted_iff (es : List LifecycleEvent) :
    ∀ st : TrackerState ε,
      ((processLifecycleEvents st es).inst.mounted = true ↔
        (st.inst.mounted = true ∧ "done" ∉ es.map LifecycleEvent.stage)) := by
  induction es with
  | nil => intro st; simp [processLifecycleEvents]
  | cons e t ih =>
      intro st
      rw [processLifecycleEvents_cons, ih]
      by_cases hd : e.stage = "done"
      · have hm : (onScratchOrgLifecycleEvent st e).inst.mounted = false := by
          simp [onScratchOrgLifecycleEvent, hd]
        simp [hm, hd]
      · have hm : (onScratchOrgLifecycleEvent st e).inst.mounted = st.inst.mounted := by
          simp [onScratchOrgLifecycleEvent, hd]
        have hd' : "done" ≠ e.stage := fun h => hd h.symm
        simp [hm, hd']

/-- Teardown accounting for the lifecycle callback: across a batch of events the status
instance is torn down once if it was live and the terminal stage occurs, and never
otherwise. -/
lemma processLifecycleEvents_teardowns (es : List LifecycleEvent) :
    ∀ st : TrackerState ε,
      (processLifecycleEvents st es).inst.teardowns =
        st.inst.teardowns +
          (if st.inst.mounted = true ∧ "done" ∈ es.map LifecycleEvent.stage then 1 else 0) := by
  induction es with
  | nil => intro st; simp [processLifecycleEvents]
  | cons e t ih =>
      intro st
      rw [processLifecycleEvents_cons, ih]
      by_cases hd : e.stage = "done"
      · have hm : (onScratchOrgLifecycleEvent st e).inst.mounted = false := by
          simp [onScratchOrgLifecycleEvent, hd]
        have ht : (onScratchOrgLifecycleEvent st e).inst.teardowns =
            st.inst.teardowns + (if st.inst.mounted then 1 else 0) := by
          simp [onScratchOrgLifecycleEvent, hd]
        rw [ht]
        by_cases hsm : st.inst.mounted = true <;> simp [hm, hsm, hd]
      · have hm : (onScratchOrgLifecycleEvent st e).inst.mounted = st.inst.mounted := by
          simp [onScratchOrgLifecycleEvent, hd]
        have ht : (onScratchOrgLifecycleEvent st e).inst.teardowns = st.inst.teardowns := by
          simp [onScratchOrgLifecycleEvent, hd]
        have hd' : "done" ≠ e.stage := fun h => hd h.symm
        rw [ht, hm]
        simp [hd']

/-- First occurrence is minimal: the index of the element found at position `i` is at
most `i`. -/
lemma indexOf_le_of_get (l : List String) :
    ∀ (i : Nat) (h : i < l.length), l.indexOf (l.get ⟨i, h⟩) ≤ i := by
  induction l with
  | nil => intro i h; simp at h
  | cons a t ih =>
      intro i h
      cases i with
      | zero => simp [List.indexOf_cons_self]
      | succ j =>
          have hget : (a :: t).get ⟨j + 1, h⟩ = t.get ⟨j, by simpa using h⟩ := rfl
          rw [hget]
          by_cases ha : a = t.get ⟨j, by simpa using h⟩
          · rw [← ha, List.indexOf_cons_self]
            omega
          · have hle := ih j (by simpa using h)
            rw [List.indexOf_cons_ne _ ha]
            omega

/-- C1 (refuting evaluation): with a non-internal url whose domain extracts as
`"mydomain"`, a retry budget of 2 and a resolver failing on every attempt, the poller
exhausts its budget (attempts 0, 1, 2) and throws, the inner catch of `open.open` turns
that into the `openCommandDomainTimeoutError` `SfdxError` -- and the outer catch
(open.ts lines 146-149) then catches that very error and returns `act()`: the operation
ends in success, the timeout never reaches the caller. -/
theorem open_absorbs_domain_timeout :
    (openOp (ε := Nat) ⟨2, false, some "mydomain", fun n => Except.error n⟩).2 =
      Except.ok () ∧
    attemptsOf (openOp (ε := Nat) ⟨2, false, some "mydomain", fun n => Except.error n⟩).1 =
      [0, 1, 2] := by
  constructor <;> rfl

/-! ### Claims about `scratch-ink.tsx` -/

/-- C6: a stage row rendered by the `Status` component is classified as completed exactly
when its position in the canonical ordered stage list strictly precedes the position of
the current event's stage (for a current stage that is a known stage of the list). -/
theorem status_completed_iff_position_precedes (stages : List String) (cur : String)
    (hcur : cur ∈ stages) (i : Nat) (hi : i < stages.length) :
    classifyStage stages cur (stages.get ⟨i, hi⟩) i = StageClass.completed ↔
      i < stages.indexOf cur := by
  have hjs : jsIndexOf stages cur = (stages.indexOf cur : Int) := by simp [jsIndexOf, hcur]
  constructor
  · intro hc
    by_contra hlt
    have h2 : ¬(jsIndexOf stages cur > (i : Int)) := by
      rw [hjs]
      exact_mod_cast hlt
    unfold classifyStage at hc
    by_cases h1 : cur = stages.get ⟨i, hi⟩ ∧ stages.get ⟨i, hi⟩ ≠ "done"
    · rw [if_pos h1] at hc
      exact absurd hc (by decide)
    · rw [if_neg h1, if_neg h2] at hc
      by_cases h3 : cur = stages.get ⟨i, hi⟩ ∧ stages.get ⟨i, hi⟩ = "done"
      · rw [if_pos h3] at hc
        exact absurd hc (by decide)
      · rw [if_neg h3] at hc
        by_cases h4 : stages.get ⟨i, hi⟩ ≠ "done"
        · rw [if_pos h4] at hc
          exact absurd hc (by decide)
        · rw [if_neg h4] at hc
          exact absurd hc (by decide)
  · intro hlt
    have hne : stages.get ⟨i, hi⟩ ≠ cur := by
      intro he
      have hle := indexOf_le_of_get stages i hi
      rw [he] at hle
      omega
    have hno : ¬(cur = stages.get ⟨i, hi⟩ ∧ stages.get ⟨i, hi⟩ ≠ "done") :=
      fun hand => hne hand.1.symm
    have h2 : jsIndexOf stages cur > (i : Int) := by
      rw [hjs]
      exact_mod_cast hlt
    unfold classifyStage
    rw [if_neg hno, if_pos h2]

/-- Witness for C6 on the concrete list `["request", "wait", "done"]` with current stage
`"wait"`: the row at position 0 is rendered completed, and 0 precedes position 1. -/
theorem status_completed_iff_position_precedes_witness :
    classifyStage ["request", "wait", "done"] "wait"
        ((["request", "wait", "done"] : List String).get ⟨0, by decide⟩) 0 =
      StageClass.completed ↔
      0 < (["request", "wait", "done"] : List String).indexOf "wait" :=
  status_completed_iff_position_precedes ["request", "wait", "done"] "wait" (by decide) 0
    (by decide)

/-- C4: once an event carrying the terminal stage `'done'` has been delivered, the status
instance is unmounted and inert -- delivering any further events leaves the rendered
status view (the whole instance: frames, mountedness, teardowns) unchanged. -/
theorem tracker_inert_after_done (st : TrackerState ε) (es₁ es₂ : List LifecycleEvent)
    (h : "done" ∈ es₁.map LifecycleEvent.stage) :
    (processLifecycleEvents st (es₁ ++ es₂)).inst =
      (processLifecycleEvents st es₁).inst := by
  have happ : processLifecycleEvents st (es₁ ++ es₂) =
      processLifecycleEvents (processLifecycleEvents st es₁) es₂ := by
    simp [processLifecycleEvents, List.foldl_append]
  rw [happ]
  apply processLifecycleEvents_inst_of_unmounted
  rcases Bool.eq_false_or_eq_true ((processLifecycleEvents st es₁).inst.mounted) with hb | hb
  · exact absurd h ((processLifecycleEvents_mounted_iff es₁ st).mp hb).2
  · exact hb

/-- Witness for C4: after observing `'done'`, a subsequent `'available'` event changes
nothing about the status instance. -/
theorem tracker_inert_after_done_witness :
    (processLifecycleEvents (initialTrackerState (ε := CreateErr))
        ([⟨"done", none⟩] ++ [⟨"available", none⟩])).inst =
      (processLifecycleEvents (initialTrackerState (ε := CreateErr)) [⟨"done", none⟩]).inst :=
  tracker_inert_after_done initialTrackerState [⟨"done", none⟩] [⟨"available", none⟩]
    (by decide)

/-- C9: with `--async` set, `run` never registers the lifecycle-event callback, never
creates the status view, and its async indicator renders the single "request sent" frame
for the whole attempt, whatever the creation call does. -/
theorem run_async_never_subscribes (bin : String) (call : CreateCall) :
    (run true bin call).subscribed = false ∧
    (run true bin call).statusInst = none ∧
    (run true bin call).asyncInst.map InkInstance.frames = some [asyncLabel] := by
  obtain ⟨events, outcome⟩ := call
  cases outcome with
  | resolved info? =>
      cases info? <;> simp [run, runCatch, InkInstance.renderNew]
  | rejected e =>
      simp [run, runCatch, InkInstance.renderNew]

/-- C5: when the creation call rejects with an `SfError` named
`'ScratchOrgInfoTimeoutError'` carrying a resumable identifier, `run` emits the resume
message built from the program name and that identifier (the message ends in the
identifier) and terminates with exit code 69, in either mode. -/
theorem run_creation_timeout_exit69 (isAsync : Bool) (bin : String)
    (events : List LifecycleEvent) (m infoId : String) :
    (run isAsync bin
        ⟨events, .rejected ⟨true, "ScratchOrgInfoTimeoutError", m, infoId⟩⟩).result =
      .exit 69 "The scratch org did not complete within your wait time" ∧
    actionResume bin infoId ∈
      (run isAsync bin
        ⟨events, .rejected ⟨true, "ScratchOrgInfoTimeoutError", m, infoId⟩⟩).infos ∧
    actionResume bin infoId =
      ("Resume scratch org creation with: " ++ bin ++ " org resume scratch --job-id ") ++
        infoId := by
  cases isAsync <;> simp [run, runCatch, actionResume]

/-- C10: when the creation call resolves without a scratch-org info payload, `run` does
not return a success result: it throws the `'The scratch org did not return with any
information'` `SfError` (whose default name is not the timeout name, so the catch block
rethrows it), in either mode. -/
theorem run_missing_info_throws (isAsync : Bool) (bin : String)
    (events : List LifecycleEvent) :
    (run isAsync bin ⟨events, .resolved none⟩).result = .thrown missingInfoError ∧
    missingInfoError.message = "The scratch org did not return with any information" := by
  cases isAsync <;> simp [run, runCatch, missingInfoError]

/-- C3: on every terminal path of one creation attempt -- success, classified creation
timeout, or unclassified failure (including a resolved call with no org info) -- every
render surface created during the attempt (the async indicator in async mode, the status
view in synchronous mode) has been torn down exactly once and is no longer live when
control returns; the hypothesis is the creation-call contract that a call resolving with
org info has emitted the terminal `'done'` lifecycle event. -/
theorem run_teardown_exactly_once (isAsync : Bool) (bin : String) (call : CreateCall)
    (hdone : ∀ info, call.outcome = Outcome.resolved (some info) →
      "done" ∈ call.events.map LifecycleEvent.stage) :
    (run isAsync bin call).asyncInst.map (fun i => (i.teardowns, i.mounted)) =
      (if isAsync then some (1, false) else none) ∧
    (run isAsync bin call).statusInst.map (fun i => (i.teardowns, i.mounted)) =
      (if isAsync then none else some (1, false)) := by
  obtain ⟨events, outcome⟩ := call
  have hm := processLifecycleEvents_mounted_iff events (initialTrackerState (ε := CreateErr))
  have ht := processLifecycleEvents_teardowns events (initialTrackerState (ε := CreateErr))
  simp only [initialTrackerState, InkInstance.renderNew] at hm ht
  cases isAsync with
  | true =>
      cases outcome with
      | resolved info? => cases info? <;> simp [run, runCatch, InkInstance.renderNew]
      | rejected e => simp [run, runCatch, InkInstance.renderNew]
  | false =>
      cases outcome with
      | resolved info? =>
          cases info? with
          | none =>
              by_cases hin : "done" ∈ events.map LifecycleEvent.stage <;>
                simp_all [run, runCatch, processLifecycleEvents_inst_of_unmounted,
                  initialTrackerState, InkInstance.renderNew]
          | some info =>
              have hev : "done" ∈ events.map LifecycleEvent.stage := hdone info rfl
              simp_all [run, initialTrackerState, InkInstance.renderNew]
      | rejected e =>
          by_cases hin : "done" ∈ events.map LifecycleEvent.stage <;>
            simp_all [run, runCatch, processLifecycleEvents_inst_of_unmounted,
              initialTrackerState, InkInstance.renderNew]

/-- Witness for C3 in synchronous mode: a call that emits `'done'` and resolves with org
info leaves the status view torn down exactly once and no async surface. -/
theorem run_teardown_exactly_once_witness :
    (run false "sf" ⟨[⟨"done", none⟩], .resolved (some ⟨"0R1"⟩)⟩).asyncInst.map
        (fun i => (i.teardowns, i.mounted)) = none ∧
    (run false "sf" ⟨[⟨"done", none⟩], .resolved (some ⟨"0R1"⟩)⟩).statusInst.map
        (fun i => (i.teardowns, i.mounted)) = some (1, false) :=
  run_teardown_exactly_once false "sf" ⟨[⟨"done", none⟩], .resolved (some ⟨"0R1"⟩)⟩
    (fun _ _ => by decide)

end PluginOrg
